import Mathlib

/-!
Verification of the Scrapper repository's extraction pipeline.

This file gives a shallow embedding of the decision logic of the
repository's four Python sources:

* `demo.py`   — retry/backoff loop (`main`), response normalization
  (`process_extraction_results`) and record validation (`validate_products`);
* `main.py`   — module-level deduplication and CSV export;
* `scrapper.py` — the extraction strategy chain of `ArticleScraper.scrape_url`.

Python values (and JSON values) are embedded by the mutual inductive `Val`;
Python dicts are association lists `PyDict := List (String × Val)` in key
insertion order, mirroring CPython dict semantics.  Machine-level concerns
(actual network fetches, file I/O and the LLM endpoint) are abstracted as
explicit inputs, exactly as the spec treats them (opaque collaborators).
-/

/-! ## Python / JSON values -/

mutual

/-- Embedding of a Python value as produced by `json.loads` and handled by the
pipeline: strings, numbers (kept as their numeral text), booleans, `None`,
lists and dicts.  Mutual with `ValList`/`ValDict` so that all recursion stays
structural (hence kernel-reducible). -/
inductive Val where
  | str (s : String)
  | num (r : String)
  | bool (b : Bool)
  | null
  | arr (xs : ValList)
  | dict (xs : ValDict)
deriving Repr

/-- List of embedded Python values. -/
inductive ValList where
  | nil
  | cons (v : Val) (tl : ValList)
deriving Repr

/-- Association list of string keys to embedded Python values, in insertion
order (a Python dict). -/
inductive ValDict where
  | nil
  | cons (k : String) (v : Val) (tl : ValDict)
deriving Repr

end

mutual

/-- Boolean equality on `Val` (Python `==` restricted to the value shapes the
pipeline produces: no cross-type numeric coercions arise for these values). -/
def valBEq : Val → Val → Bool
  | .str x, .str y => x == y
  | .num x, .num y => x == y
  | .bool x, .bool y => x == y
  | .null, .null => true
  | .arr xs, .arr ys => vlistBEq xs ys
  | .dict xs, .dict ys => vdictBEq xs ys
  | _, _ => false

/-- Boolean equality on `ValList`. -/
def vlistBEq : ValList → ValList → Bool
  | .nil, .nil => true
  | .cons v tl, .cons w tl2 => valBEq v w && vlistBEq tl tl2
  | _, _ => false

/-- Boolean equality on `ValDict`. -/
def vdictBEq : ValDict → ValDict → Bool
  | .nil, .nil => true
  | .cons k v tl, .cons k2 w tl2 => k == k2 && valBEq v w && vdictBEq tl tl2
  | _, _ => false

end

mutual

/-- Soundness and completeness of `valBEq`. -/
def valBEq_iff : ∀ a b, valBEq a b = true ↔ a = b
  | .str x, b => by cases b <;> simp [valBEq]
  | .num x, b => by cases b <;> simp [valBEq]
  | .bool x, b => by cases b <;> simp [valBEq]
  | .null, b => by cases b <;> simp [valBEq]
  | .arr xs, b => by
      cases b <;> simp [valBEq]
      exact vlistBEq_iff xs _
  | .dict xs, b => by
      cases b <;> simp [valBEq]
      exact vdictBEq_iff xs _

/-- Soundness and completeness of `vlistBEq`. -/
def vlistBEq_iff : ∀ a b, vlistBEq a b = true ↔ a = b
  | .nil, b => by cases b <;> simp [vlistBEq]
  | .cons v tl, b => by
      cases b <;> simp [vlistBEq]
      rw [valBEq_iff, vlistBEq_iff]

/-- Soundness and completeness of `vdictBEq`. -/
def vdictBEq_iff : ∀ a b, vdictBEq a b = true ↔ a = b
  | .nil, b => by cases b <;> simp [vdictBEq]
  | .cons k v tl, b => by
      cases b <;> simp [vdictBEq]
      rw [valBEq_iff, vdictBEq_iff]
      exact and_assoc

end

instance : DecidableEq Val := fun a b =>
  decidable_of_iff (valBEq a b = true) (valBEq_iff a b)

instance : DecidableEq ValList := fun a b =>
  decidable_of_iff (vlistBEq a b = true) (vlistBEq_iff a b)

instance : DecidableEq ValDict := fun a b =>
  decidable_of_iff (vdictBEq a b = true) (vdictBEq_iff a b)

/-- Conversion of an embedded Python list to a Lean list. -/
def ValList.toList : ValList → List Val
  | .nil => []
  | .cons v tl => v :: ValList.toList tl

/-- Conversion of a Lean list to an embedded Python list. -/
def ValList.ofList : List Val → ValList
  | [] => .nil
  | v :: tl => .cons v (ValList.ofList tl)

/-- A Python dict, embedded as an association list in key insertion order. -/
abbrev PyDict := List (String × Val)

/-- Conversion of an embedded Python dict to an association list. -/
def ValDict.toList : ValDict → PyDict
  | .nil => []
  | .cons k v tl => (k, v) :: ValDict.toList tl

/-- Conversion of an association list to an embedded Python dict. -/
def ValDict.ofList : PyDict → ValDict
  | [] => .nil
  | (k, v) :: tl => .cons k v (ValDict.ofList tl)

/-! ## Dict primitives (CPython semantics) -/

/-- Python `d[k]` / `d.get(k)`: value of the first (unique) binding of `k`. -/
def dictLookup : PyDict → String → Option Val
  | [], _ => none
  | (k0, v0) :: rest, k => if k0 = k then some v0 else dictLookup rest k

/-- Python `k in d`. -/
def dictContains (d : PyDict) (k : String) : Bool :=
  (dictLookup d k).isSome

/-- Python `d[k] = v`: replaces the value of an existing binding in place
(keeping its position), or appends a new binding at the end. -/
def dictSet : PyDict → String → Val → PyDict
  | [], k, v => [(k, v)]
  | (k0, v0) :: rest, k, v =>
    if k0 = k then (k0, v) :: rest else (k0, v0) :: dictSet rest k v

mutual

/-- Python `repr` for the embedded values (quote escaping inside string
reprs is not modelled; no claim depends on it). -/
def pyRepr : Val → String
  | .str s => "'" ++ s ++ "'"
  | .num r => r
  | .bool b => cond b "True" "False"
  | .null => "None"
  | .arr xs => "[" ++ String.intercalate ", " (pyReprList xs) ++ "]"
  | .dict xs => "\x7b" ++ String.intercalate ", " (pyReprDict xs) ++ "\x7d"

/-- Reprs of the elements of an embedded list. -/
def pyReprList : ValList → List String
  | .nil => []
  | .cons v tl => pyRepr v :: pyReprList tl

/-- Reprs of the entries of an embedded dict. -/
def pyReprDict : ValDict → List String
  | .nil => []
  | .cons k v tl => ("'" ++ k ++ "': " ++ pyRepr v) :: pyReprDict tl

end

/-- Python `str(v)`. -/
def pyStr : Val → String
  | .str s => s
  | v => pyRepr v

/-- Python truthiness of a value (numbers are truthy unless their numeral
text denotes zero). -/
def pyTruthy : Val → Bool
  | .str s => !(s == "")
  | .num r => r.data.any fun c => c.isDigit && !(c == '0')
  | .bool b => b
  | .null => false
  | .arr xs => !(xs == .nil)
  | .dict xs => !(xs == .nil)

/-- Truthiness of `d.get(k)` (missing key gives `None`, which is falsy). -/
def pyTruthyOpt : Option Val → Bool
  | none => false
  | some v => pyTruthy v

/-! ## Retry controller of `demo.py` (`main`, lines 86–134)

The body of one `try` attempt (browser fetch plus result processing) is an
opaque external interaction; it is abstracted by a function giving, for each
value of `retry_count` at which an attempt runs, the attempt's outcome. -/

/-- Outcome of one attempt of the `demo.py` retry loop: the `try` body
completes (`success`, reaching `break`), raises an exception whose text
contains "rate limit" (`rateLimit`), or raises any other exception
(`otherError`). -/
inductive AttemptOutcome where
  | success
  | rateLimit
  | otherError
deriving DecidableEq, Repr

/-- Observable result of a run of the `demo.py` retry loop: the delays
actually slept (in order), how many attempts were made, whether an attempt
succeeded, whether the loop re-raised the final exception, and the final
value of `retry_count`. -/
structure RunResult where
  sleeps : List Nat
  attempts : Nat
  succeeded : Bool
  raised : Bool
  finalCount : Nat
deriving DecidableEq, Repr

/-- One `while retry_count < max_retries` loop of `demo.py`'s `main`, with
`fuel` maintaining `fuel = maxRetries - retry_count` (the loop counter rises
by exactly one per failed iteration, so this is exact).  On failure the code
computes `delay = min(cap, base * 2 ** retry_count)` for the incremented
counter; a rate-limited failure always sleeps and retries, any other failure
sleeps and retries only while `retry_count < max_retries` and otherwise
re-raises. -/
def demoLoop (outcome : Nat → AttemptOutcome) (maxR base cap : Nat) :
    Nat → Nat → RunResult
  | 0, rc => ⟨[], 0, false, false, rc⟩
  | fuel + 1, rc =>
    match outcome rc with
    | .success => ⟨[], 1, true, false, rc⟩
    | .rateLimit =>
      let delay := min cap (base * 2 ^ (rc + 1))
      let r := demoLoop outcome maxR base cap fuel (rc + 1)
      ⟨delay :: r.sleeps, r.attempts + 1, r.succeeded, r.raised, r.finalCount⟩
    | .otherError =>
      let delay := min cap (base * 2 ^ (rc + 1))
      if rc + 1 < maxR then
        let r := demoLoop outcome maxR base cap fuel (rc + 1)
        ⟨delay :: r.sleeps, r.attempts + 1, r.succeeded, r.raised, r.finalCount⟩
      else
        ⟨[], 1, false, true, rc + 1⟩

/-- The `demo.py` retry controller with its literal constants
`max_retries = 7`, `base_delay = 8` and the `min(120, …)` cap, started at
`retry_count = 0`. -/
def demoMain (outcome : Nat → AttemptOutcome) : RunResult :=
  demoLoop outcome 7 8 120 7 0

/-! ## A model of `json.loads`

Recursive-descent JSON parser over character lists, with fuel bounded by the
input length (each nesting level consumes at least one character, so the fuel
never runs out on real input).  It follows Python's `json` module: strict
strings (raw control characters rejected, `\uXXXX` escapes), numbers with no
leading zeros, and the `NaN`/`Infinity` extensions. -/

/-- JSON whitespace (the characters `json.loads` skips between tokens). -/
def isJsonWs (c : Char) : Bool :=
  c == ' ' || c == '\t' || c == '\n' || c == '\r'

/-- Drops leading JSON whitespace. -/
def skipWs : List Char → List Char
  | [] => []
  | c :: rest => if isJsonWs c then skipWs rest else c :: rest

/-- Consumes an expected literal character sequence. -/
def stripPrefixChars : List Char → List Char → Option (List Char)
  | [], rest => some rest
  | _ :: _, [] => none
  | a :: ps, b :: rest => if a = b then stripPrefixChars ps rest else none

/-- Value of a hexadecimal digit. -/
def hexVal (c : Char) : Option Nat :=
  if c.isDigit then some (c.toNat - 48)
  else if 'a' ≤ c ∧ c ≤ 'f' then some (c.toNat - 87)
  else if 'A' ≤ c ∧ c ≤ 'F' then some (c.toNat - 55)
  else none

/-- Body of a JSON string after the opening quote: returns the decoded
characters and the input after the closing quote. -/
def parseStringBody : List Char → Option (List Char × List Char)
  | [] => none
  | '"' :: rest => some ([], rest)
  | '\\' :: esc =>
    match esc with
    | '"' :: rest => (parseStringBody rest).map fun p => ('"' :: p.1, p.2)
    | '\\' :: rest => (parseStringBody rest).map fun p => ('\\' :: p.1, p.2)
    | '/' :: rest => (parseStringBody rest).map fun p => ('/' :: p.1, p.2)
    | 'b' :: rest => (parseStringBody rest).map fun p => ('\x08' :: p.1, p.2)
    | 'f' :: rest => (parseStringBody rest).map fun p => ('\x0c' :: p.1, p.2)
    | 'n' :: rest => (parseStringBody rest).map fun p => ('\n' :: p.1, p.2)
    | 'r' :: rest => (parseStringBody rest).map fun p => ('\r' :: p.1, p.2)
    | 't' :: rest => (parseStringBody rest).map fun p => ('\t' :: p.1, p.2)
    | 'u' :: h1 :: h2 :: h3 :: h4 :: rest =>
      match hexVal h1, hexVal h2, hexVal h3, hexVal h4 with
      | some a, some b, some c, some d =>
        let code := ((a * 16 + b) * 16 + c) * 16 + d
        (parseStringBody rest).map fun p => (Char.ofNat code :: p.1, p.2)
      | _, _, _, _ => none
    | _ => none
  | c :: rest =>
    if c.toNat < 32 then none
    else (parseStringBody rest).map fun p => (c :: p.1, p.2)

/-- Splits off the maximal prefix of characters satisfying `p`. -/
def takeWhileSplit (p : Char → Bool) : List Char → (List Char × List Char)
  | [] => ([], [])
  | c :: rest =>
    if p c then
      let q := takeWhileSplit p rest
      (c :: q.1, q.2)
    else ([], c :: rest)

/-- A JSON number token (sign, integer part without leading zeros, optional
fraction, optional exponent); returns its characters and the remainder. -/
def parseNumber (cs : List Char) : Option (List Char × List Char) :=
  let sgn : List Char × List Char :=
    match cs with
    | '-' :: rest => (['-'], rest)
    | _ => ([], cs)
  let intPart : Option (List Char × List Char) :=
    match sgn.2 with
    | '0' :: rest => some (['0'], rest)
    | c :: rest =>
      if c.isDigit then
        let q := takeWhileSplit Char.isDigit rest
        some (c :: q.1, q.2)
      else none
    | [] => none
  match intPart with
  | none => none
  | some (ip, r1) =>
    let frac : Option (List Char × List Char) :=
      match r1 with
      | '.' :: r2 =>
        let q := takeWhileSplit Char.isDigit r2
        if q.1 = [] then none else some ('.' :: q.1, q.2)
      | _ => some ([], r1)
    match frac with
    | none => none
    | some (fp, r2) =>
      let expo : Option (List Char × List Char) :=
        match r2 with
        | c :: r3 =>
          if c = 'e' ∨ c = 'E' then
            let sgn2 : List Char × List Char :=
              match r3 with
              | '+' :: r4 => (['+'], r4)
              | '-' :: r4 => (['-'], r4)
              | _ => ([], r3)
            let q := takeWhileSplit Char.isDigit sgn2.2
            if q.1 = [] then none else some (c :: sgn2.1 ++ q.1, q.2)
          else some ([], r2)
        | [] => some ([], r2)
      match expo with
      | none => none
      | some (ep, r3) => some (sgn.1 ++ ip ++ fp ++ ep, r3)

mutual

/-- A JSON value (after leading whitespace); fuel decreases at each nesting
level. -/
def parseVal : Nat → List Char → Option (Val × List Char)
  | 0, _ => none
  | fuel + 1, cs =>
    match skipWs cs with
    | [] => none
    | c :: rest =>
      if c = '"' then
        (parseStringBody rest).map fun p => (.str (String.mk p.1), p.2)
      else if c = '\x7b' then
        match skipWs rest with
        | '\x7d' :: r2 => some (.dict .nil, r2)
        | r2 => (parseObjItems fuel [] r2).map fun p => (.dict (ValDict.ofList p.1), p.2)
      else if c = '[' then
        match skipWs rest with
        | ']' :: r2 => some (.arr .nil, r2)
        | r2 => (parseArrItems fuel [] r2).map fun p => (.arr (ValList.ofList p.1), p.2)
      else if c = 't' then
        (stripPrefixChars "rue".data rest).map fun r2 => (.bool true, r2)
      else if c = 'f' then
        (stripPrefixChars "alse".data rest).map fun r2 => (.bool false, r2)
      else if c = 'n' then
        (stripPrefixChars "ull".data rest).map fun r2 => (.null, r2)
      else if c = 'N' then
        (stripPrefixChars "aN".data rest).map fun r2 => (.num "NaN", r2)
      else if c = 'I' then
        (stripPrefixChars "nfinity".data rest).map fun r2 => (.num "Infinity", r2)
      else if c = '-' ∧ stripPrefixChars "-Infinity".data (c :: rest) ≠ none then
        (stripPrefixChars "-Infinity".data (c :: rest)).map fun r2 => (.num "-Infinity", r2)
      else
        (parseNumber (c :: rest)).map fun p => (.num (String.mk p.1), p.2)

/-- Members of a JSON object after the opening brace (non-empty case);
duplicate keys keep the first position with the later value, as in CPython. -/
def parseObjItems : Nat → PyDict → List Char → Option (PyDict × List Char)
  | 0, _, _ => none
  | fuel + 1, acc, cs =>
    match skipWs cs with
    | '"' :: rest =>
      match parseStringBody rest with
      | none => none
      | some (kcs, r2) =>
        match skipWs r2 with
        | ':' :: r3 =>
          match parseVal fuel r3 with
          | none => none
          | some (v, r4) =>
            let acc2 := dictSet acc (String.mk kcs) v
            match skipWs r4 with
            | ',' :: r5 => parseObjItems fuel acc2 r5
            | '\x7d' :: r5 => some (acc2, r5)
            | _ => none
        | _ => none
    | _ => none

/-- Elements of a JSON array after the opening bracket (non-empty case). -/
def parseArrItems : Nat → List Val → List Char → Option (List Val × List Char)
  | 0, _, _ => none
  | fuel + 1, acc, cs =>
    match parseVal fuel cs with
    | none => none
    | some (v, r) =>
      match skipWs r with
      | ',' :: r2 => parseArrItems fuel (acc ++ [v]) r2
      | ']' :: r2 => some (acc ++ [v], r2)
      | _ => none

end

/-- Model of Python's `json.loads`: parse one value and require only
whitespace to remain; `none` models a raised `json.JSONDecodeError`. -/
def pyJsonLoads (s : String) : Option Val :=
  match parseVal (s.length + 2) s.data with
  | some (v, rest) => if skipWs rest = [] then some v else none
  | none => none

/-! ## Record validation of `demo.py` (`validate_products`, lines 53–84) -/

/-- The `Product` pydantic model of `demo.py`: `title` and `price` are
required `str` fields, the rest are `Optional[str]` defaulting to `None`. -/
structure Product where
  title : String
  weight : Option String
  price : String
  badge : Option String
  reviews : Option String
deriving DecidableEq, Repr

/-- An entry of the `error_log` list of `validate_products` (the `error`
message text is not modelled; the claims concern index and raw item). -/
structure ErrEntry where
  index : Nat
  item : PyDict
deriving DecidableEq, Repr

/-- The dict comprehension `{k: str(v) for k, v in item.items()}`. -/
def sanitizeDict : PyDict → PyDict
  | [] => []
  | (k, v) :: rest => (k, Val.str (pyStr v)) :: sanitizeDict rest

/-- Price normalization `re.sub(r'[^\d.]', '', price)`: keep only decimal
digits and dots (every dot is kept). -/
def stripPrice (s : String) : String :=
  String.mk (s.data.filter fun c => c.isDigit || c == '.')

/-- Python `\s` (ASCII range): space, tab, newline, carriage return,
vertical tab, form feed. -/
def isPySpace (c : Char) : Bool :=
  c == ' ' || c == '\t' || c == '\n' || c == '\r' || c == '\x0b' || c == '\x0c'

/-- Match of the pattern `(\d+\s*[gG]|\d+\s*[kK][gG])` anchored at the start
of `cs`.  Both alternatives start with maximal `\d+\s*` (backtracking cannot
help: shrinking `\d+` leaves a digit where `[gG]`/`[kK]` must match), then the
first alternative needs `g`/`G` and the second `k`/`K` followed by `g`/`G`. -/
def weightMatchAt (cs : List Char) : Option (List Char) :=
  let q1 := takeWhileSplit Char.isDigit cs
  if q1.1 = [] then none
  else
    let q2 := takeWhileSplit isPySpace q1.2
    match q2.2 with
    | c :: rest =>
      if c = 'g' ∨ c = 'G' then some (q1.1 ++ q2.1 ++ [c])
      else if c = 'k' ∨ c = 'K' then
        match rest with
        | c2 :: _ => if c2 = 'g' ∨ c2 = 'G' then some (q1.1 ++ q2.1 ++ [c, c2]) else none
        | [] => none
      else none
    | [] => none

/-- Model of `re.search(r'(\d+\s*[gG]|\d+\s*[kK][gG])', title)`: leftmost
match wins, scanning start positions left to right. -/
def weightSearch : List Char → Option String
  | [] => none
  | cs@(_ :: rest) =>
    match weightMatchAt cs with
    | some m => some (String.mk m)
    | none => weightSearch rest

/-- Python `sanitized.get(k, dflt)` coerced to the string it holds (all
values are strings at the call sites, produced by `sanitizeDict`). -/
def getStrD (d : PyDict) (k : String) (dflt : String) : String :=
  match dictLookup d k with
  | some v => pyStr v
  | none => dflt

/-- String-shaped values. -/
def isStrVal : Val → Bool
  | .str _ => true
  | _ => false

/-- Contents of a string-shaped value. -/
def asStr : Val → Option String
  | .str s => some s
  | _ => none

/-- An `Optional[str]` pydantic field: missing gives `None`; a present value
must be a string (the call sites only ever pass strings). -/
def optField (d : PyDict) (k : String) : Option (Option String) :=
  match dictLookup d k with
  | none => some none
  | some v => (asStr v).map some

/-- Pydantic validation `Product(**sanitized)`: requires `title` and `price`
to be present strings (the empty string is a valid `str`), optional fields
may be absent; extra keys are ignored (pydantic's default).  `none` models a
raised `ValidationError`. -/
def mkProduct (d : PyDict) : Option Product := do
  let t ← dictLookup d "title" >>= asStr
  let p ← dictLookup d "price" >>= asStr
  let w ← optField d "weight"
  let b ← optField d "badge"
  let r ← optField d "reviews"
  some ⟨t, w, p, b, r⟩

/-- Price normalization step of `validate_products` (lines 63–64): when
`price` is present, replace it by its stripped form. -/
def priceStep (d : PyDict) : PyDict :=
  if dictContains d "price" then
    dictSet d "price" (.str (stripPrice (getStrD d "price" "")))
  else d

/-- Weight fallback step of `validate_products` (lines 67–69): when `weight`
is falsy, derive it from `title` via the weight pattern when one matches. -/
def weightStep (d : PyDict) : PyDict :=
  if pyTruthyOpt (dictLookup d "weight") then d
  else
    match weightSearch (getStrD d "title" "").data with
    | some m => dictSet d "weight" (.str m)
    | none => d

/-- The `try` body of `validate_products` for one candidate: sanitize all
values to strings, normalize `price` when present, derive `weight` from
`title` when `weight` is falsy, then validate; `none` models a caught
exception (the candidate is rejected). -/
def processItem (item : PyDict) : Option Product :=
  mkProduct (weightStep (priceStep (sanitizeDict item)))

/-- The enumeration loop of `validate_products`, carrying the running
`enumerate` index: each candidate contributes either one validated record or
one error-log entry. -/
def validateAux : Nat → List PyDict → List Product × List ErrEntry
  | _, [] => ([], [])
  | idx, it :: rest =>
    let r := validateAux (idx + 1) rest
    match processItem it with
    | some p => (p :: r.1, r.2)
    | none => (r.1, ⟨idx, it⟩ :: r.2)

/-- Model of `validate_products`: returns the validated records and the
error log, both in input order. -/
def validateProducts (raw : List PyDict) : List Product × List ErrEntry :=
  validateAux 0 raw

/-! ## Response normalization of `demo.py`
(`process_extraction_results`, lines 151–215) -/

/-- Python `str.replace('\\"', '"')`: left-to-right, non-overlapping. -/
def replaceEscQuote : List Char → List Char
  | '\\' :: '"' :: rest => '"' :: replaceEscQuote rest
  | c :: rest => c :: replaceEscQuote rest
  | [] => []

/-- String-wrapped responses (lines 157–158): if the text starts and ends
with a double quote, strip one quote from each end and unescape `\"`. -/
def unwrapQuotes (s : String) : String :=
  match s.data with
  | '"' :: rest =>
    if ('"' :: rest).getLast? = some '"' then String.mk (replaceEscQuote rest.dropLast)
    else s
  | _ => s

/-- Whether `\s*` followed by a closing fence ` ``` ` matches here (the
maximal whitespace run is forced: a backtick is not whitespace). -/
def closeFenceOk (cs : List Char) : Bool :=
  (stripPrefixChars "```".data ((takeWhileSplit isPySpace cs).2)).isSome

/-- Lazy group `(\{.*?\})` after the opening brace: scan for the first `}`
whose continuation matches `\s*` ``` ` ``` `; `acc` holds the group body seen
so far, reversed. -/
def findFenceGroup (acc : List Char) : List Char → Option (List Char)
  | [] => none
  | c :: rest =>
    if c = '\x7d' && closeFenceOk rest then
      some ('\x7b' :: (acc.reverse ++ ['\x7d']))
    else findFenceGroup (c :: acc) rest

/-- Match of `` ```json\s*(\{.*?\})\s*``` `` (with `re.DOTALL`) anchored at
`cs`: the literal fence label, maximal whitespace (forced, since `{` is not
whitespace), an opening brace, then the lazy group. -/
def mdMatchAt (cs : List Char) : Option (List Char) :=
  match stripPrefixChars "```json".data cs with
  | none => none
  | some r1 =>
    match (takeWhileSplit isPySpace r1).2 with
    | '\x7b' :: r2 => findFenceGroup [] r2
    | _ => none

/-- Model of `re.search` for the fenced-JSON pattern: try every start
position left to right and return the first group. -/
def mdSearch : List Char → Option (List Char)
  | [] => none
  | cs@(_ :: rest) =>
    match mdMatchAt cs with
    | some g => some g
    | none => mdSearch rest

/-- The parsing stage of `process_extraction_results` on string content
(lines 155–168): unwrap string-wrapped JSON, attempt a direct parse, and on
`JSONDecodeError` fall back to the fenced-block search; an unparseable group
re-raises `JSONDecodeError`, no match raises `ValueError`. -/
def parseStage (content : String) : Except String Val :=
  let c := unwrapQuotes content
  match pyJsonLoads c with
  | some d => .ok d
  | none =>
    match mdSearch c.data with
    | some g =>
      match pyJsonLoads (String.mk g) with
      | some d => .ok d
      | none => .error "JSONDecodeError"
    | none => .error "No valid JSON found in response"

/-- The envelope unwrapping (lines 174–179): a dict with a `products` key is
replaced by that key's value; otherwise a dict with a non-empty list under
`blocks` is replaced by that list. -/
def unwrapEnvelope (data : Val) : Val :=
  match data with
  | .dict xs =>
    let d := xs.toList
    if dictContains d "products" then
      match dictLookup d "products" with
      | some v => v
      | none => .dict xs
    else
      match dictLookup d "blocks" with
      | some (.arr bs) => if bs == .nil then .dict xs else .arr bs
      | _ => .dict xs
  | v => v

/-- Python `"₹" in s` (the needle is the single rupee character). -/
def hasRupee (s : String) : Bool :=
  s.data.contains '₹'

/-- Whether a value is a string containing the rupee symbol (the scan's
`isinstance(v, str) and "₹" in v`). -/
def valIsRupeeStr : Val → Bool
  | .str s => hasRupee s
  | _ => false

/-- The price-promotion scan (lines 199–205): iterate the dict's entries in
order; at each entry check the key first, then the value, and stop at the
first hit. -/
def scanRupee : PyDict → Option Val
  | [] => none
  | (k, v) :: rest =>
    if hasRupee k then some (.str k)
    else if valIsRupeeStr v then some v
    else scanRupee rest

/-- The per-element normalization of the `raw_products` loop (lines
188–215): require `title`, promote a rupee-bearing key or value to `price`
when `price` is missing, drop the element if `price` is still missing, and
stringify a non-string price. -/
def normalizeItem (item : PyDict) : Option PyDict :=
  if !(dictContains item "title") then none
  else
    let item1 :=
      if dictContains item "price" then item
      else
        match scanRupee item with
        | some v => dictSet item "price" v
        | none => item
    if !(dictContains item1 "price") then none
    else
      let item2 :=
        match dictLookup item1 "price" with
        | some (.str _) => item1
        | some v => dictSet item1 "price" (.str (pyStr v))
        | none => item1
      some item2

/-- The `raw_products` collection loop (lines 186–215): only list-shaped
data yields candidates; non-dict elements are skipped. -/
def normalizeData (data : Val) : List PyDict :=
  match data with
  | .arr xs =>
    xs.toList.filterMap fun x =>
      match x with
      | .dict d => normalizeItem d.toList
      | _ => none
  | _ => []

/-! ## Extraction strategy chain of `scrapper.py`
(`ArticleScraper.scrape_url`, lines 219–342) -/

/-- The observable part of one `crawler.arun` result used by `scrape_url`:
success flag, the structural-extraction payload and the rendered markdown
variants (`none` models an absent attribute or `None`). -/
structure FetchResult where
  success : Bool
  extractedContent : Option String
  fitMarkdown : Option String
  rawMarkdown : Option String
  pageTitle : Option String
deriving DecidableEq, Repr

/-- Outcome of one structural extraction attempt: `raised` models an
exception escaping to `scrape_url`'s outermost handler (e.g. `.get` on a
non-dict first element), `missed` a strategy producing no article data. -/
inductive ExtractOutcome where
  | raised
  | missed
  | found (d : PyDict)
deriving DecidableEq, Repr

/-- Article extraction from one parsed JSON mapping (lines 261–273): take
`title` and `content` with empty-string defaults and accept when either is
truthy. -/
def articleFromObj (d : PyDict) : Option PyDict :=
  let t := (dictLookup d "title").getD (.str "")
  let c := (dictLookup d "content").getD (.str "")
  if pyTruthy t || pyTruthy c then some [("title", t), ("content", c)] else none

/-- Structural extraction from `result.extracted_content` (lines 255–276):
falsy content or malformed JSON is a miss; a mapping or the first element of
a non-empty list is inspected for `title`/`content`; a list whose first
element is not a mapping raises (`.get` on it is an `AttributeError`, which
only the outermost handler catches). -/
def extractArticleData (ec : Option String) : ExtractOutcome :=
  match ec with
  | none => .missed
  | some s =>
    if s == "" then .missed
    else
      match pyJsonLoads s with
      | none => .missed
      | some j =>
        match j with
        | .dict d =>
          match articleFromObj d.toList with
          | some a => .found a
          | none => .missed
        | .arr (.cons x _) =>
          match x with
          | .dict d =>
            match articleFromObj d.toList with
            | some a => .found a
            | none => .missed
          | _ => .raised
        | _ => .missed

/-- The fallback title (line 319): the page title when present and truthy,
otherwise the sentinel `"No Title Found"`. -/
def fallbackTitle (r : FetchResult) : Val :=
  match r.pageTitle with
  | some t => if t == "" then .str "No Title Found" else .str t
  | none => .str "No Title Found"

/-- Truthiness of an optional markdown attribute (`hasattr … and …`). -/
def truthyStr : Option String → Bool
  | some s => !(s == "")
  | none => false

/-- The markdown fallback choice (lines 321–329): prefer a truthy
`fit_markdown`, then a truthy `raw_markdown`, else nothing. -/
def chooseContent (r : FetchResult) : Option String :=
  if truthyStr r.fitMarkdown then r.fitMarkdown
  else if truthyStr r.rawMarkdown then r.rawMarkdown
  else none

/-- Model of `scrape_url`, with the two `crawler.arun` results supplied as
inputs (`res1` for the primary CSS strategy, `res2` for the alternative
strategy; the source reassigns `result` to the second fetch before the
markdown fallback, so the fallback reads `res2`). -/
def scrapeUrl (res1 res2 : FetchResult) : Option PyDict :=
  if !res1.success then none
  else
    match extractArticleData res1.extractedContent with
    | .raised => none
    | .found a => some a
    | .missed =>
      match (if res2.success then extractArticleData res2.extractedContent else .missed) with
      | .raised => none
      | .found a => some a
      | .missed =>
        match chooseContent res2 with
        | some c => some [("title", fallbackTitle res2), ("content", .str c)]
        | none => none

/-! ## Deduplication and CSV export of `main.py` (lines 166–176) -/

/-- Hashability of a value as a member of `tuple(d.items())`: lists and
dicts are unhashable in Python, the scalar values here are hashable. -/
def hashableVal : Val → Bool
  | .arr _ => false
  | .dict _ => false
  | _ => true

/-- Whether `tuple(d.items())` is hashable, i.e. every value of the record
is hashable. -/
def recordHashable (d : PyDict) : Bool :=
  d.all fun p => hashableVal p.2

/-- Distinct elements of a list (the set `{tuple(d.items()) for d in …}`
keeps one copy of each element; the model lists them in first-occurrence
order — CPython's set iteration order is unspecified, and the claims only
concern the resulting set). -/
def pyDedup {α : Type} [DecidableEq α] : List α → List α
  | [] => []
  | x :: xs => if x ∈ pyDedup xs then pyDedup xs else x :: pyDedup xs

/-- Model of `unique_products = [dict(t) for t in {tuple(d.items()) for d in
all_products}]`: hashing any record containing an unhashable value raises
`TypeError`; otherwise exact duplicates (same key/value pairs in the same
order) are collapsed and `dict(t)` rebuilds each record unchanged. -/
def uniqueProducts (ps : List PyDict) : Except String (List PyDict) :=
  if ps.all recordHashable then .ok (pyDedup ps) else .error "unhashable type"

/-- The fixed CSV column order of `main.py`. -/
def csvFieldnames : List String :=
  ["title", "weight", "description", "discount", "price", "badge", "reviews"]

/-- Rendering of one cell by `csv.DictWriter`: a missing key yields the
default `restval=None`, and `None` is written as the empty string. -/
def csvCell : Option Val → String
  | none => ""
  | some .null => ""
  | some v => pyStr v

/-- The cells of one CSV row in fixed column order. -/
def csvRowOf (d : PyDict) : List String :=
  csvFieldnames.map fun f => csvCell (dictLookup d f)

/-- `DictWriter.writerow` with the default `extrasaction='raise'`: a record
with any key outside the fixed column set raises `ValueError`. -/
def writeRow (d : PyDict) : Except String (List String) :=
  if d.all (fun p => csvFieldnames.contains p.1) then .ok (csvRowOf d)
  else .error "dict contains fields not in fieldnames"

/-- `writer.writerows(unique_products)`: writes rows in order, raising at
the first offending record. -/
def writeRows : List PyDict → Except String (List (List String))
  | [] => .ok []
  | d :: rest =>
    match writeRow d with
    | .ok r =>
      match writeRows rest with
      | .ok rs => .ok (r :: rs)
      | .error e => .error e
    | .error e => .error e

/-- The dedup-then-export step of `main.py` (lines 166–176): deduplicate,
then write one CSV row per surviving record. -/
def dedupAndExport (ps : List PyDict) : Except String (List (List String)) :=
  match uniqueProducts ps with
  | .ok u => writeRows u
  | .error e => .error e

/-! ## Auxiliary definitions used by the statements below -/

/-- Whether every value of a dict is a string (the invariant established by
`sanitizeDict` and preserved by the validator's updates). -/
def allStrDict (d : PyDict) : Bool :=
  d.all fun p => isStrVal p.2

/-- Whether one dict entry triggers the rupee scan (key first, then a
string value). -/
def rupeePairMatch (p : String × Val) : Bool :=
  hasRupee p.1 || valIsRupeeStr p.2

/-- The value the rupee scan assigns for a triggering entry: the key when
the key matched, otherwise the value. -/
def rupeePairPick (p : String × Val) : Val :=
  if hasRupee p.1 then .str p.1 else p.2

/-- Stated from the spec's words for comparison (claim C8): a promotion that
prefers a matching key name anywhere in the record over any matching value
("preferring a matching key name, then a matching value" read as a global
preference). -/
def specKeyFirstPrice (d : PyDict) : Option Val :=
  match d.find? (fun p => hasRupee p.1) with
  | some p => some (.str p.1)
  | none => (d.find? (fun p => valIsRupeeStr p.2)).map (·.2)

instance {ε α : Type} [DecidableEq ε] [DecidableEq α] : DecidableEq (Except ε α) := fun a b =>
  match a, b with
  | .ok x, .ok y => if h : x = y then isTrue (by rw [h]) else isFalse (by simp [h])
  | .error x, .error y => if h : x = y then isTrue (by rw [h]) else isFalse (by simp [h])
  | .ok _, .error _ => isFalse (by simp)
  | .error _, .ok _ => isFalse (by simp)

/-! ## Lemmas about the dict primitives -/

theorem dictLookup_sanitize (d : PyDict) (k : String) :
    dictLookup (sanitizeDict d) k = (dictLookup d k).map fun v => .str (pyStr v) := by
  induction d with
  | nil => rfl
  | cons p rest ih =>
    obtain ⟨k0, v0⟩ := p
    by_cases h : k0 = k <;> simp [sanitizeDict, dictLookup, h, ih]

theorem dictLookup_dictSet_self (d : PyDict) (k : String) (v : Val) :
    dictLookup (dictSet d k v) k = some v := by
  induction d with
  | nil => simp [dictSet, dictLookup]
  | cons p rest ih =>
    obtain ⟨k0, v0⟩ := p
    by_cases h : k0 = k <;> simp [dictSet, dictLookup, h, ih]

theorem dictLookup_dictSet_ne (d : PyDict) (k k' : String) (v : Val) (h : k' ≠ k) :
    dictLookup (dictSet d k v) k' = dictLookup d k' := by
  induction d with
  | nil =>
    simp only [dictSet, dictLookup]
    rw [if_neg fun hh => h hh.symm]
  | cons p rest ih =>
    obtain ⟨k0, v0⟩ := p
    simp only [dictSet]
    by_cases h0 : k0 = k
    · rw [if_pos h0]
      subst h0
      simp only [dictLookup]
      rw [if_neg fun hh => h hh.symm, if_neg fun hh => h hh.symm]
    · rw [if_neg h0]
      simp only [dictLookup]
      by_cases h1 : k0 = k'
      · rw [if_pos h1, if_pos h1]
      · rw [if_neg h1, if_neg h1, ih]

theorem allStr_sanitize (d : PyDict) : allStrDict (sanitizeDict d) = true := by
  induction d with
  | nil => rfl
  | cons p rest ih =>
    obtain ⟨k0, v0⟩ := p
    simp only [sanitizeDict, allStrDict, List.all_cons, Bool.and_eq_true]
    exact ⟨by simp [isStrVal], ih⟩

theorem allStr_dictSet (d : PyDict) (k : String) (s : String)
    (h : allStrDict d = true) : allStrDict (dictSet d k (.str s)) = true := by
  induction d with
  | nil => simp [dictSet, allStrDict, isStrVal]
  | cons p rest ih =>
    obtain ⟨k0, v0⟩ := p
    simp only [allStrDict, List.all_cons, Bool.and_eq_true] at h
    by_cases h0 : k0 = k
    · simp only [dictSet, if_pos h0, allStrDict, List.all_cons, Bool.and_eq_true]
      exact ⟨by simp [isStrVal], h.2⟩
    · have h2 := ih h.2
      simp only [dictSet, if_neg h0, allStrDict, List.all_cons, Bool.and_eq_true]
      exact ⟨h.1, h2⟩

theorem allStr_lookup (d : PyDict) (k : String) (v : Val)
    (h : allStrDict d = true) (hl : dictLookup d k = some v) : isStrVal v = true := by
  induction d with
  | nil => simp [dictLookup] at hl
  | cons p rest ih =>
    obtain ⟨k0, v0⟩ := p
    simp only [allStrDict, List.all_cons, Bool.and_eq_true] at h
    by_cases h0 : k0 = k
    · simp only [dictLookup, if_pos h0, Option.some.injEq] at hl
      rw [← hl]
      exact h.1
    · simp only [dictLookup, if_neg h0] at hl
      exact ih h.2 hl

theorem optField_allStr (d : PyDict) (k : String) (h : allStrDict d = true) :
    ∃ w, optField d k = some w := by
  cases hl : dictLookup d k with
  | none => exact ⟨none, by simp [optField, hl]⟩
  | some v =>
    have hs := allStr_lookup d k v h hl
    cases v <;> simp [isStrVal] at hs
    case str s => exact ⟨some s, by simp [optField, hl, asStr]⟩

theorem mkProduct_eval (d : PyDict) (t pr : String) (h : allStrDict d = true)
    (ht : dictLookup d "title" = some (.str t))
    (hp : dictLookup d "price" = some (.str pr)) :
    ∃ prod, mkProduct d = some prod ∧ prod.title = t ∧ prod.price = pr := by
  obtain ⟨w, hw⟩ := optField_allStr d "weight" h
  obtain ⟨b, hb⟩ := optField_allStr d "badge" h
  obtain ⟨r, hr⟩ := optField_allStr d "reviews" h
  exact ⟨⟨t, w, pr, b, r⟩, by simp [mkProduct, ht, hp, asStr, hw, hb, hr], rfl, rfl⟩

theorem mkProduct_none_of_no_title (d : PyDict) (h : dictLookup d "title" = none) :
    mkProduct d = none := by
  simp [mkProduct, h]

/-! ## Lemmas about deduplication -/

theorem mem_pyDedup {α : Type} [DecidableEq α] (l : List α) :
    ∀ a, a ∈ pyDedup l ↔ a ∈ l := by
  induction l with
  | nil => intro a; simp [pyDedup]
  | cons x xs ih =>
    intro a
    by_cases h : x ∈ pyDedup xs
    · rw [pyDedup, if_pos h, ih a, List.mem_cons]
      constructor
      · exact Or.inr
      · rintro (rfl | ha)
        · exact (ih a).mp h
        · exact ha
    · rw [pyDedup, if_neg h, List.mem_cons, List.mem_cons, ih a]

theorem nodup_pyDedup {α : Type} [DecidableEq α] (l : List α) : (pyDedup l).Nodup := by
  induction l with
  | nil => simp [pyDedup]
  | cons x xs ih =>
    by_cases h : x ∈ pyDedup xs
    · rw [pyDedup, if_pos h]
      exact ih
    · rw [pyDedup, if_neg h]
      exact List.Nodup.cons h ih

theorem pyDedup_eq_self {α : Type} [DecidableEq α] (l : List α) (h : l.Nodup) :
    pyDedup l = l := by
  induction l with
  | nil => rfl
  | cons x xs ih =>
    rw [List.nodup_cons] at h
    have hx : x ∉ pyDedup xs := by rw [mem_pyDedup]; exact h.1
    rw [pyDedup, if_neg hx, ih h.2]

/-! ## Lemmas about the validator -/

theorem validateAux_fst (l : List PyDict) :
    ∀ i, (validateAux i l).1 = l.filterMap processItem := by
  induction l with
  | nil => intro i; rfl
  | cons it rest ih =>
    intro i
    cases h : processItem it <;>
      simp [validateAux, h, ih (i + 1), List.filterMap_cons]

theorem validateAux_len (l : List PyDict) :
    ∀ i, (validateAux i l).1.length + (validateAux i l).2.length = l.length := by
  induction l with
  | nil => intro i; rfl
  | cons it rest ih =>
    intro i
    have := ih (i + 1)
    cases h : processItem it <;> simp [validateAux, h] <;> omega

theorem validateAux_err_ge (l : List PyDict) :
    ∀ i, ∀ e ∈ (validateAux i l).2, i ≤ e.index := by
  induction l with
  | nil => intro i e he; simp [validateAux] at he
  | cons it rest ih =>
    intro i e he
    cases h : processItem it <;> rw [validateAux] at he <;> simp only [h] at he
    · rcases List.mem_cons.mp he with rfl | he2
      · exact Nat.le_refl i
      · exact Nat.le_of_succ_le (ih (i + 1) e he2)
    · exact Nat.le_of_succ_le (ih (i + 1) e he)

theorem filter_idx_nil (l : List ErrEntry) (n : Nat) (hgt : ∀ e ∈ l, n < e.index) :
    (l.filter fun e => e.index == n) = [] := by
  induction l with
  | nil => rfl
  | cons e rest ih =>
    have h1 := hgt e (List.mem_cons_self e rest)
    have h2 : (e.index == n) = false := by
      simp only [beq_eq_false_iff_ne, ne_eq]
      omega
    rw [List.filter_cons, h2]
    simp only [Bool.false_eq_true, if_false]
    exact ih fun x hx => hgt x (List.mem_cons_of_mem e hx)

theorem validateAux_err_filter (l : List PyDict) :
    ∀ i j it, l.get? j = some it → processItem it = none →
      ((validateAux i l).2.filter fun e => e.index == i + j) = [⟨i + j, it⟩] := by
  induction l with
  | nil => intro i j it h _; simp [List.get?] at h
  | cons x rest ih =>
    intro i j it h hn
    cases j with
    | zero =>
      have hx : x = it := by simpa [List.get?] using h
      subst hx
      rw [validateAux]
      simp only [hn, Nat.add_zero]
      rw [List.filter_cons]
      have hcond : ((⟨i, x⟩ : ErrEntry).index == i) = true := by simp
      rw [hcond]
      simp only [if_true]
      rw [filter_idx_nil _ i fun e he => Nat.lt_of_succ_le (validateAux_err_ge rest (i + 1) e he)]
    | succ j' =>
      have h' : rest.get? j' = some it := by simpa [List.get?] using h
      have harith : i + (j' + 1) = (i + 1) + j' := by omega
      cases hx : processItem x <;> rw [validateAux] <;> simp only [hx]
      · rw [List.filter_cons]
        have hcond : ((⟨i, x⟩ : ErrEntry).index == i + (j' + 1)) = false := by
          simp only [beq_eq_false_iff_ne, ne_eq]
          omega
        rw [hcond]
        simp only [Bool.false_eq_true, if_false, harith]
        exact ih (i + 1) j' it h' hn
      · simp only [harith]
        exact ih (i + 1) j' it h' hn

theorem priceStep_lookup_ne (d : PyDict) (k : String) (h : k ≠ "price") :
    dictLookup (priceStep d) k = dictLookup d k := by
  unfold priceStep
  by_cases hc : dictContains d "price"
  · rw [if_pos hc, dictLookup_dictSet_ne _ _ _ _ h]
  · rw [if_neg hc]

theorem priceStep_lookup_price (d : PyDict) (s : String)
    (h : dictLookup d "price" = some (.str s)) :
    dictLookup (priceStep d) "price" = some (.str (stripPrice s)) := by
  unfold priceStep
  have hc : dictContains d "price" = true := by simp [dictContains, h]
  rw [if_pos hc, dictLookup_dictSet_self]
  have hg : getStrD d "price" "" = s := by simp [getStrD, h, pyStr]
  rw [hg]

theorem priceStep_lookup_price_none (d : PyDict)
    (h : dictLookup d "price" = none) :
    dictLookup (priceStep d) "price" = none := by
  unfold priceStep
  have hc : dictContains d "price" = false := by simp [dictContains, h]
  rw [if_neg (by simp [hc]), h]

theorem priceStep_allStr (d : PyDict) (h : allStrDict d = true) :
    allStrDict (priceStep d) = true := by
  unfold priceStep
  by_cases hc : dictContains d "price"
  · rw [if_pos hc]
    exact allStr_dictSet d _ _ h
  · rw [if_neg hc]
    exact h

theorem weightStep_lookup_ne (d : PyDict) (k : String) (h : k ≠ "weight") :
    dictLookup (weightStep d) k = dictLookup d k := by
  unfold weightStep
  by_cases ht : pyTruthyOpt (dictLookup d "weight")
  · rw [if_pos ht]
  · rw [if_neg ht]
    cases weightSearch (getStrD d "title" "").data with
    | none => rfl
    | some m => exact dictLookup_dictSet_ne _ _ _ _ h

theorem weightStep_allStr (d : PyDict) (h : allStrDict d = true) :
    allStrDict (weightStep d) = true := by
  unfold weightStep
  by_cases ht : pyTruthyOpt (dictLookup d "weight")
  · rw [if_pos ht]
    exact h
  · rw [if_neg ht]
    cases weightSearch (getStrD d "title" "").data with
    | none => exact h
    | some m => exact allStr_dictSet d _ _ h

/-- Shape of the validator's per-candidate computation: it validates some
dict whose values are all strings, whose `title` is the stringified input
title and whose `price` is the stripped stringified input price. -/
theorem processItem_shape (item : PyDict) :
    ∃ d, processItem item = mkProduct d ∧ allStrDict d = true
      ∧ dictLookup d "title" = ((dictLookup item "title").map fun v => Val.str (pyStr v))
      ∧ dictLookup d "price" =
          ((dictLookup item "price").map fun v => Val.str (stripPrice (pyStr v))) := by
  refine ⟨weightStep (priceStep (sanitizeDict item)), rfl, ?_, ?_, ?_⟩
  · exact weightStep_allStr _ (priceStep_allStr _ (allStr_sanitize item))
  · rw [weightStep_lookup_ne _ _ (by decide), priceStep_lookup_ne _ _ (by decide),
      dictLookup_sanitize]
  · rw [weightStep_lookup_ne _ _ (by decide)]
    rcases hl : dictLookup item "price" with _ | pv
    · rw [priceStep_lookup_price_none]
      · rfl
      · rw [dictLookup_sanitize, hl]
        rfl
    · rw [priceStep_lookup_price _ (pyStr pv)]
      · rfl
      · rw [dictLookup_sanitize, hl]
        rfl

theorem processItem_none_of_no_title (item : PyDict)
    (h : dictContains item "title" = false) : processItem item = none := by
  obtain ⟨d, hpe, _, hdt, _⟩ := processItem_shape item
  have h0 : dictLookup item "title" = none := by
    cases hl : dictLookup item "title"
    · rfl
    · rw [dictContains, hl] at h
      simp at h
  rw [hpe]
  apply mkProduct_none_of_no_title
  rw [hdt, h0]
  rfl

theorem validateAux_snd (l : List PyDict) :
    ∀ i, (validateAux i l).2 = (List.enumFrom i l).filterMap fun q =>
        if processItem q.2 = none then some ⟨q.1, q.2⟩ else none := by
  induction l with
  | nil => intro i; rfl
  | cons it rest ih =>
    intro i
    cases h : processItem it <;>
      simp [validateAux, h, ih (i + 1), List.enumFrom, List.filterMap_cons]

/-! ## Lemmas about the export step and the rupee scan -/

theorem writeRows_ok (l : List PyDict)
    (h : ∀ d ∈ l, (d.all fun p => csvFieldnames.contains p.1) = true) :
    writeRows l = .ok (l.map csvRowOf) := by
  induction l with
  | nil => rfl
  | cons d rest ih =>
    have hd : writeRow d = .ok (csvRowOf d) := by
      unfold writeRow
      rw [if_pos (h d (List.mem_cons_self d rest))]
    rw [writeRows, hd, ih fun x hx => h x (List.mem_cons_of_mem d hx), List.map_cons]

theorem scanRupee_eq_find (d : PyDict) :
    scanRupee d = (d.find? rupeePairMatch).map rupeePairPick := by
  induction d with
  | nil => rfl
  | cons p rest ih =>
    obtain ⟨k, v⟩ := p
    by_cases hk : hasRupee k
    · simp [scanRupee, hk, List.find?_cons, rupeePairMatch, rupeePairPick]
    · by_cases hv : valIsRupeeStr v
      · simp [scanRupee, hk, hv, List.find?_cons, rupeePairMatch, rupeePairPick]
      · simp [scanRupee, hk, hv, List.find?_cons, rupeePairMatch, ih]

/-! ## Lemmas about the retry loop -/

theorem demoLoop_step (outcome : Nat → AttemptOutcome) (maxR base cap fuel rc : Nat)
    (h : outcome rc ≠ .success) (hlt : rc + 1 < maxR) :
    demoLoop outcome maxR base cap (fuel + 1) rc =
      ⟨min cap (base * 2 ^ (rc + 1)) ::
        (demoLoop outcome maxR base cap fuel (rc + 1)).sleeps,
       (demoLoop outcome maxR base cap fuel (rc + 1)).attempts + 1,
       (demoLoop outcome maxR base cap fuel (rc + 1)).succeeded,
       (demoLoop outcome maxR base cap fuel (rc + 1)).raised,
       (demoLoop outcome maxR base cap fuel (rc + 1)).finalCount⟩ := by
  cases ho : outcome rc with
  | success => exact absurd ho h
  | rateLimit => simp [demoLoop, ho]
  | otherError => simp [demoLoop, ho, hlt]

/-! ## Claim theorems -/

/-- Claim C10: the Validator partitions its input — every candidate yields
exactly one outcome (a validated record or an error-log entry), the counts
add up to the input length, validated records are the in-order filterMap of
the candidates (hence preserve relative order), and error entries are the
in-order enumeration of the rejected candidates with their original
indices. -/
theorem c10_validator_partition (raw : List PyDict) :
    (validateProducts raw).1.length + (validateProducts raw).2.length = raw.length
    ∧ (validateProducts raw).1 = raw.filterMap processItem
    ∧ (validateProducts raw).2 = (List.enumFrom 0 raw).filterMap fun q =>
        if processItem q.2 = none then some ⟨q.1, q.2⟩ else none :=
  ⟨validateAux_len raw 0, validateAux_fst raw 0, validateAux_snd raw 0⟩

/-- Claim C6 counterexample: a candidate whose `title` coerces to the empty
string is NOT rejected — pydantic accepts the empty string for a required
`str` field, so `validate_products` returns it as a validated record with no
error-log entry, contradicting the claim's "(or whose title coerces to
empty)" clause. -/
theorem c6_empty_title_accepted :
    validateProducts [[("title", Val.str ""), ("price", Val.str "5")]] =
      ([⟨"", none, "5", none, none⟩], []) := by decide

/-- Claim C6 (amended): for every candidate missing the `title` key, the
Validator rejects it, appends exactly one error-log entry whose index is the
candidate's original position, and continues with the remaining candidates
(the validated output is still the in-order filterMap of all candidates). -/
theorem c6_missing_title_rejected (raw : List PyDict) (j : Nat) (it : PyDict)
    (hj : raw.get? j = some it) (ht : dictContains it "title" = false) :
    processItem it = none
    ∧ ((validateProducts raw).2.filter fun e => e.index == j) = [⟨j, it⟩]
    ∧ (validateProducts raw).1 = raw.filterMap processItem := by
  have hn := processItem_none_of_no_title it ht
  refine ⟨hn, ?_, validateAux_fst raw 0⟩
  have h0 := validateAux_err_filter raw 0 j it hj hn
  simpa [validateProducts] using h0

/-- Witness for C6 at a concrete candidate list. -/
theorem c6_missing_title_rejected_witness :
    ([[("price", Val.str "5")]] : List PyDict).get? 0 = some [("price", Val.str "5")]
    ∧ dictContains [("price", Val.str "5")] "title" = false
    ∧ (processItem [("price", Val.str "5")] = none
       ∧ ((validateProducts [[("price", Val.str "5")]]).2.filter fun e => e.index == 0) =
           [⟨0, [("price", Val.str "5")]⟩]
       ∧ (validateProducts [[("price", Val.str "5")]]).1 =
           [[("price", Val.str "5")]].filterMap processItem) :=
  ⟨by decide, by decide, c6_missing_title_rejected _ 0 _ (by decide) (by decide)⟩

/-- Claim C4 counterexample: the price normalization `re.sub(r'[^\d.]', '',
…)` keeps every dot, so the candidate price `"1.2.3"` is accepted verbatim
and the validated record's price contains two decimal points, contradicting
"at most one decimal point". -/
theorem c4_price_two_decimal_points :
    validateProducts [[("title", Val.str "A"), ("price", Val.str "1.2.3")]] =
      ([⟨"A", none, "1.2.3", none, none⟩], [])
    ∧ ("1.2.3".data.filter fun c => c == '.').length = 2 :=
  ⟨by decide, by decide⟩

/-- Claim C4 (amended): for every candidate with a non-empty `title` value
and a present `price` value, the Validator accepts it and the record's price
is the stringified price stripped to digit and dot characters only (possibly
with several dots). -/
theorem c4_accepted_price_digits_dots (item : PyDict) (tv pv : Val)
    (ht : dictLookup item "title" = some tv) (htne : pyStr tv ≠ "")
    (hp : dictLookup item "price" = some pv) :
    ∃ prod, processItem item = some prod ∧ prod.title = pyStr tv
      ∧ prod.price = stripPrice (pyStr pv)
      ∧ ∀ c ∈ prod.price.data, c.isDigit = true ∨ c = '.' := by
  obtain ⟨d, hpe, hall, hdt, hdp⟩ := processItem_shape item
  rw [ht, Option.map_some'] at hdt
  rw [hp, Option.map_some'] at hdp
  obtain ⟨prod, hmk, hptitle, hpprice⟩ :=
    mkProduct_eval d (pyStr tv) (stripPrice (pyStr pv)) hall hdt hdp
  refine ⟨prod, by rw [hpe, hmk], hptitle, hpprice, ?_⟩
  intro c hc
  rw [hpprice] at hc
  have hm : c ∈ (pyStr pv).data.filter fun c => c.isDigit || c == '.' := hc
  rcases Bool.or_eq_true _ _ |>.mp (List.mem_filter.mp hm).2 with h | h
  · exact Or.inl h
  · exact Or.inr (by simpa using h)

/-- Witness for C4 at a concrete candidate. -/
theorem c4_accepted_price_digits_dots_witness :
    dictLookup [("title", Val.str "Bread 400g"), ("price", Val.str "₹50")] "title" =
      some (Val.str "Bread 400g")
    ∧ pyStr (Val.str "Bread 400g") ≠ ""
    ∧ dictLookup [("title", Val.str "Bread 400g"), ("price", Val.str "₹50")] "price" =
      some (Val.str "₹50")
    ∧ ∃ prod, processItem [("title", Val.str "Bread 400g"), ("price", Val.str "₹50")] = some prod
        ∧ prod.title = pyStr (Val.str "Bread 400g")
        ∧ prod.price = stripPrice (pyStr (Val.str "₹50"))
        ∧ ∀ c ∈ prod.price.data, c.isDigit = true ∨ c = '.' :=
  ⟨by decide, by decide, by decide,
    c4_accepted_price_digits_dots _ _ _ (by decide) (by decide) (by decide)⟩

/-- Claim C2: for the retry controller with base delay 8, cap 120 and 7
attempts, on every execution in which each attempt fails the backoff delays
slept before a retry are exactly `min(120, 8·2^k)` for `k = 1..6` — that is
`[16, 32, 64, 120, 120, 120]` — non-decreasing and strictly increasing until
the cap is reached; the run makes all 7 attempts, never succeeding and never
terminating earlier, and its failed terminal state is reached exactly at
attempt counter 7 (re-raising there unless the last failure was
rate-limited, in which case a seventh delay of 120 is slept before the loop
exits). -/
theorem c2_retry_schedule (outcome : Nat → AttemptOutcome)
    (h : ∀ k, k < 7 → outcome k ≠ .success) :
    ((demoMain outcome).sleeps.take 6 =
        ((List.range 6).map fun k => min 120 (8 * 2 ^ (k + 1))))
    ∧ (demoMain outcome).sleeps.take 6 = [16, 32, 64, 120, 120, 120]
    ∧ List.Chain' (fun a b => a ≤ b ∧ (b < 120 → a < b)) ((demoMain outcome).sleeps.take 6)
    ∧ (demoMain outcome).attempts = 7
    ∧ (demoMain outcome).succeeded = false
    ∧ (demoMain outcome).finalCount = 7
    ∧ ((demoMain outcome).raised = true ∨ (demoMain outcome).sleeps.length = 7) := by
  rcases ho : outcome 6 with _ | _ | _
  · exact absurd ho (h 6 (by omega))
  · have e : demoMain outcome = ⟨[16, 32, 64, 120, 120, 120, 120], 7, false, false, 7⟩ := by
      unfold demoMain
      rw [demoLoop_step outcome 7 8 120 6 0 (h 0 (by omega)) (by omega),
          demoLoop_step outcome 7 8 120 5 1 (h 1 (by omega)) (by omega),
          demoLoop_step outcome 7 8 120 4 2 (h 2 (by omega)) (by omega),
          demoLoop_step outcome 7 8 120 3 3 (h 3 (by omega)) (by omega),
          demoLoop_step outcome 7 8 120 2 4 (h 4 (by omega)) (by omega),
          demoLoop_step outcome 7 8 120 1 5 (h 5 (by omega)) (by omega)]
      simp [demoLoop, ho]
    rw [e]
    refine ⟨by decide, by decide, ?_, rfl, rfl, rfl, Or.inr rfl⟩
    show List.Chain' (fun a b => a ≤ b ∧ (b < 120 → a < b)) [16, 32, 64, 120, 120, 120]
    norm_num [List.chain'_cons, List.chain'_singleton]
  · have e : demoMain outcome = ⟨[16, 32, 64, 120, 120, 120], 7, false, true, 7⟩ := by
      unfold demoMain
      rw [demoLoop_step outcome 7 8 120 6 0 (h 0 (by omega)) (by omega),
          demoLoop_step outcome 7 8 120 5 1 (h 1 (by omega)) (by omega),
          demoLoop_step outcome 7 8 120 4 2 (h 2 (by omega)) (by omega),
          demoLoop_step outcome 7 8 120 3 3 (h 3 (by omega)) (by omega),
          demoLoop_step outcome 7 8 120 2 4 (h 4 (by omega)) (by omega),
          demoLoop_step outcome 7 8 120 1 5 (h 5 (by omega)) (by omega)]
      simp [demoLoop, ho]
    rw [e]
    refine ⟨by decide, by decide, ?_, rfl, rfl, rfl, Or.inl rfl⟩
    show List.Chain' (fun a b => a ≤ b ∧ (b < 120 → a < b)) [16, 32, 64, 120, 120, 120]
    norm_num [List.chain'_cons, List.chain'_singleton]

/-- Witness for C2 on the all-generic-failure execution. -/
theorem c2_retry_schedule_witness :
    (∀ k, k < 7 → (fun _ => AttemptOutcome.otherError) k ≠ AttemptOutcome.success)
    ∧ (demoMain fun _ => AttemptOutcome.otherError).sleeps.take 6 =
        [16, 32, 64, 120, 120, 120] :=
  ⟨by decide, (c2_retry_schedule (fun _ => AttemptOutcome.otherError) (by decide)).2.1⟩

/-- Claim C3 counterexample: when every attempt fails with a rate-limit
error, retry exhaustion is NOT process-fatal — the loop sleeps a final 120 s
delay, exits silently, and nothing is re-raised, contradicting the claim for
rate-limited failures. -/
theorem c3_rate_limit_exhaustion_silent :
    (demoMain fun _ => AttemptOutcome.rateLimit).raised = false
    ∧ (demoMain fun _ => AttemptOutcome.rateLimit).succeeded = false
    ∧ (demoMain fun _ => AttemptOutcome.rateLimit).attempts = 7 := by decide

/-- Claim C3 (amended): in the single-URL demo pipeline, when all 7 attempts
fail and the final failure is not a rate-limit error, exhaustion is
process-fatal — the controller re-raises after the final attempt; when the
final failure is rate-limited the loop instead exits silently (see the
counterexample). -/
theorem c3_fatal_on_final_generic_failure (outcome : Nat → AttemptOutcome)
    (h : ∀ k, k < 7 → outcome k ≠ .success) (h6 : outcome 6 = .otherError) :
    (demoMain outcome).raised = true ∧ (demoMain outcome).succeeded = false := by
  have e : demoMain outcome = ⟨[16, 32, 64, 120, 120, 120], 7, false, true, 7⟩ := by
    unfold demoMain
    rw [demoLoop_step outcome 7 8 120 6 0 (h 0 (by omega)) (by omega),
        demoLoop_step outcome 7 8 120 5 1 (h 1 (by omega)) (by omega),
        demoLoop_step outcome 7 8 120 4 2 (h 2 (by omega)) (by omega),
        demoLoop_step outcome 7 8 120 3 3 (h 3 (by omega)) (by omega),
        demoLoop_step outcome 7 8 120 2 4 (h 4 (by omega)) (by omega),
        demoLoop_step outcome 7 8 120 1 5 (h 5 (by omega)) (by omega)]
    simp [demoLoop, h6]
  rw [e]
  exact ⟨rfl, rfl⟩

/-- Witness for C3 on the all-generic-failure execution. -/
theorem c3_fatal_on_final_generic_failure_witness :
    (∀ k, k < 7 → (fun _ => AttemptOutcome.otherError) k ≠ AttemptOutcome.success)
    ∧ (fun _ => AttemptOutcome.otherError) 6 = AttemptOutcome.otherError
    ∧ ((demoMain fun _ => AttemptOutcome.otherError).raised = true
       ∧ (demoMain fun _ => AttemptOutcome.otherError).succeeded = false) :=
  ⟨by decide, rfl, c3_fatal_on_final_generic_failure _ (by decide) rfl⟩

/-- Claim C5 counterexample: two records with identical values across all
fields but different field order are BOTH kept by the dedup step — the set
is built from `tuple(d.items())`, which depends on key insertion order, so
full-record equality is not order-independent. -/
theorem c5_dedup_field_order_sensitive :
    uniqueProducts [[("a", Val.str "1"), ("b", Val.str "2")],
                    [("b", Val.str "2"), ("a", Val.str "1")]] =
      .ok [[("a", Val.str "1"), ("b", Val.str "2")], [("b", Val.str "2"), ("a", Val.str "1")]]
    ∧ ([(("a" : String), Val.str "1"), ("b", Val.str "2")] : PyDict).Perm
        [("b", Val.str "2"), ("a", Val.str "1")] :=
  ⟨by decide, by decide⟩

/-- Claim C5 (amended): deduplication removes exact duplicates under
order-SENSITIVE full-record equality (identical key/value pairs in identical
order): every successful dedup output is duplicate-free, contains exactly
the records of the input, and dedup is idempotent — running it on its own
output returns that output unchanged. -/
theorem c5_dedup_exact_idempotent (ps u : List PyDict)
    (h : uniqueProducts ps = .ok u) :
    u.Nodup ∧ (∀ d, d ∈ u ↔ d ∈ ps) ∧ uniqueProducts u = .ok u := by
  unfold uniqueProducts at h
  by_cases hH : ps.all recordHashable
  · rw [if_pos hH] at h
    have hu : pyDedup ps = u := by simpa using h
    subst hu
    refine ⟨nodup_pyDedup ps, fun d => mem_pyDedup ps d, ?_⟩
    unfold uniqueProducts
    have hH2 : (pyDedup ps).all recordHashable = true := by
      rw [List.all_eq_true] at hH ⊢
      intro d hd
      exact hH d ((mem_pyDedup ps d).mp hd)
    rw [if_pos hH2, pyDedup_eq_self _ (nodup_pyDedup ps)]
  · rw [if_neg hH] at h
    exact absurd h (by simp)

/-- Witness for C5 at a concrete duplicated batch. -/
theorem c5_dedup_exact_idempotent_witness :
    uniqueProducts [[("a", Val.str "1")], [("a", Val.str "1")]] = .ok [[("a", Val.str "1")]]
    ∧ (([[("a", Val.str "1")]] : List PyDict).Nodup
       ∧ (∀ d, d ∈ ([[("a", Val.str "1")]] : List PyDict) ↔
            d ∈ [[("a", Val.str "1")], [("a", Val.str "1")]])
       ∧ uniqueProducts [[("a", Val.str "1")]] = .ok [[("a", Val.str "1")]]) :=
  ⟨by decide, c5_dedup_exact_idempotent _ _ (by decide)⟩

/-- Claim C1 counterexample: a record carrying an extra field beyond the
fixed column set makes the dedup+export step raise — `csv.DictWriter` with
its default `extrasaction='raise'` rejects it with `ValueError`, so the step
does not terminate normally on such batches. -/
theorem c1_export_raises_on_extra_field :
    dedupAndExport [[("title", Val.str "A"), ("price", Val.str "5"), ("extra", Val.str "x")]] =
      .error "dict contains fields not in fieldnames" := by decide

/-- Claim C1 (amended): the dedup+export step terminates normally exactly on
well-formed batches — for every record list whose values are hashable and
whose keys all lie in the fixed column set, the step succeeds and writes one
row (in fixed column order) per deduplicated record. -/
theorem c1_export_ok_on_clean_records (ps : List PyDict)
    (hH : ps.all recordHashable = true)
    (hK : (ps.all fun d => d.all fun p => csvFieldnames.contains p.1) = true) :
    dedupAndExport ps = .ok ((pyDedup ps).map csvRowOf) := by
  unfold dedupAndExport uniqueProducts
  rw [if_pos hH]
  apply writeRows_ok
  intro d hd
  rw [List.all_eq_true] at hK
  exact hK d ((mem_pyDedup ps d).mp hd)

/-- Witness for C1 at a concrete clean batch. -/
theorem c1_export_ok_on_clean_records_witness :
    (([[("title", Val.str "A"), ("price", Val.str "5")]] : List PyDict).all recordHashable = true)
    ∧ (([[("title", Val.str "A"), ("price", Val.str "5")]] : List PyDict).all
        (fun d => d.all fun p => csvFieldnames.contains p.1) = true)
    ∧ dedupAndExport [[("title", Val.str "A"), ("price", Val.str "5")]] =
        .ok ((pyDedup [[("title", Val.str "A"), ("price", Val.str "5")]]).map csvRowOf) :=
  ⟨by decide, by decide, c1_export_ok_on_clean_records _ (by decide) (by decide)⟩

/-- Claim C8 counterexample: in the record
`{"title": "x", "a": "₹5", "₹k": "z"}` the code promotes the VALUE `"₹5"`
found at the second entry even though a later KEY `"₹k"` contains the
currency symbol; the key-over-value preference the claim states (modelled by
`specKeyFirstPrice`) would promote `"₹k"` instead, so the claim's preference
order is wrong. -/
theorem c8_value_promoted_despite_later_key :
    normalizeItem [("title", Val.str "x"), ("a", Val.str "₹5"), ("₹k", Val.str "z")] =
      some [("title", Val.str "x"), ("a", Val.str "₹5"), ("₹k", Val.str "z"),
            ("price", Val.str "₹5")]
    ∧ specKeyFirstPrice [("title", Val.str "x"), ("a", Val.str "₹5"), ("₹k", Val.str "z")] =
      some (Val.str "₹k") :=
  ⟨by decide, by decide⟩

/-- Claim C8 (amended): for every element with a `title` key and no `price`
key, the Normalizer walks the entries in order checking each entry's key
first and then its (string) value, assigns the first match containing ₹ to
`price`, and drops the element when no entry matches. -/
theorem c8_first_matching_pair_promoted (item : PyDict)
    (ht : dictContains item "title" = true)
    (hp : dictContains item "price" = false) :
    normalizeItem item =
      (item.find? rupeePairMatch).map fun q => dictSet item "price" (rupeePairPick q) := by
  cases hf : item.find? rupeePairMatch with
  | none =>
    have hs : scanRupee item = none := by rw [scanRupee_eq_find, hf]; rfl
    simp [normalizeItem, ht, hp, hs]
  | some q =>
    have hs : scanRupee item = some (rupeePairPick q) := by rw [scanRupee_eq_find, hf]; rfl
    have hm : rupeePairMatch q = true := List.find?_some hf
    have hstr : ∃ s, rupeePairPick q = .str s := by
      by_cases hk : hasRupee q.1
      · exact ⟨q.1, by simp [rupeePairPick, hk]⟩
      · rw [rupeePairMatch, Bool.or_eq_true] at hm
        rcases hm with hm | hm
        · exact absurd hm (by simp [hk])
        · rcases hq : q.2 with s | r | b | _ | xs | xs <;> rw [hq] at hm <;>
            simp [valIsRupeeStr] at hm
          exact ⟨s, by simp [rupeePairPick, hk, hq]⟩
    obtain ⟨s, hsv⟩ := hstr
    have hlook2 : dictLookup (dictSet item "price" (rupeePairPick q)) "price" =
        some (.str s) := by
      rw [dictLookup_dictSet_self, hsv]
    have hcontains2 : dictContains (dictSet item "price" (rupeePairPick q)) "price" = true := by
      simp [dictContains, hlook2]
    simp [normalizeItem, ht, hp, hs, hcontains2, hlook2]

/-- Witness for C8 at a concrete element. -/
theorem c8_first_matching_pair_promoted_witness :
    dictContains [("title", Val.str "t"), ("p", Val.str "₹9")] "title" = true
    ∧ dictContains [("title", Val.str "t"), ("p", Val.str "₹9")] "price" = false
    ∧ normalizeItem [("title", Val.str "t"), ("p", Val.str "₹9")] =
        (([("title", Val.str "t"), ("p", Val.str "₹9")] : PyDict).find? rupeePairMatch).map
          fun q => dictSet [("title", Val.str "t"), ("p", Val.str "₹9")] "price"
            (rupeePairPick q) :=
  ⟨by decide, by decide, c8_first_matching_pair_promoted _ (by decide) (by decide)⟩

/-- Claim C7 counterexample: a completion text that fails direct JSON
parsing and contains a fenced `json` block holding a JSON ARRAY is not
recovered — the fence pattern `` ```json\s*(\{.*?\})\s*``` `` only matches a
brace-delimited object, so the Normalizer raises `ValueError` instead of
parsing the array. -/
theorem c7_fenced_array_not_extracted :
    pyJsonLoads "```json\n[1, 2]\n```" = none
    ∧ pyJsonLoads "[1, 2]" = some (.arr (.cons (.num "1") (.cons (.num "2") .nil)))
    ∧ parseStage "```json\n[1, 2]\n```" = .error "No valid JSON found in response" :=
  ⟨by decide, by decide, by decide⟩

/-- Claim C7 (amended): for every completion text that fails direct JSON
parsing, when the fenced-block search finds a brace-delimited group that
parses as JSON (which the pattern restricts to JSON objects — fenced arrays
are never found), the Normalizer returns that parsed value. -/
theorem c7_fenced_object_extracted (content : String) (g : List Char) (v : Val)
    (h1 : pyJsonLoads (unwrapQuotes content) = none)
    (h2 : mdSearch (unwrapQuotes content).data = some g)
    (h3 : pyJsonLoads (String.mk g) = some v) :
    parseStage content = .ok v := by
  simp only [parseStage, h1, h2, h3]

/-- Witness for C7 at a concrete fenced object. -/
theorem c7_fenced_object_extracted_witness :
    pyJsonLoads (unwrapQuotes "```json\n\x7b\"a\": 1\x7d\n```") = none
    ∧ mdSearch (unwrapQuotes "```json\n\x7b\"a\": 1\x7d\n```").data =
        some ("\x7b\"a\": 1\x7d" : String).data
    ∧ pyJsonLoads (String.mk ("\x7b\"a\": 1\x7d" : String).data) =
        some (.dict (.cons "a" (.num "1") .nil))
    ∧ parseStage "```json\n\x7b\"a\": 1\x7d\n```" =
        .ok (.dict (.cons "a" (.num "1") .nil)) := by
  refine ⟨by decide, by decide, by decide, ?_⟩
  exact c7_fenced_object_extracted "```json\n\x7b\"a\": 1\x7d\n```"
    ("\x7b\"a\": 1\x7d" : String).data (.dict (.cons "a" (.num "1") .nil))
    (by decide) (by decide) (by decide)

/-- Claim C9: when both structural extraction strategies yield no record,
`scrape_url` falls back to markdown — it uses the filtered (fit) markdown
when that is present and non-empty, otherwise the raw markdown when that is
present and non-empty, and returns the explicit no-data result (`None`) when
both are absent or empty. -/
theorem c9_markdown_fallback (res1 res2 : FetchResult)
    (h1 : res1.success = true)
    (h2 : extractArticleData res1.extractedContent = .missed)
    (h3 : res2.success = true → extractArticleData res2.extractedContent = .missed) :
    (∀ c, res2.fitMarkdown = some c → c ≠ "" →
        scrapeUrl res1 res2 = some [("title", fallbackTitle res2), ("content", .str c)])
    ∧ (truthyStr res2.fitMarkdown = false → ∀ c, res2.rawMarkdown = some c → c ≠ "" →
        scrapeUrl res1 res2 = some [("title", fallbackTitle res2), ("content", .str c)])
    ∧ (truthyStr res2.fitMarkdown = false → truthyStr res2.rawMarkdown = false →
        scrapeUrl res1 res2 = none) := by
  have hstep2 :
      (if res2.success then extractArticleData res2.extractedContent else .missed) =
        .missed := by
    by_cases hs : res2.success
    · rw [if_pos hs]
      exact h3 hs
    · rw [if_neg hs]
  have hbase : scrapeUrl res1 res2 =
      match chooseContent res2 with
      | some c => some [("title", fallbackTitle res2), ("content", .str c)]
      | none => none := by
    simp only [scrapeUrl, h1, hstep2, h2, Bool.not_true, Bool.false_eq_true, if_false]
  refine ⟨?_, ?_, ?_⟩
  · intro c hc hne
    have ht : truthyStr res2.fitMarkdown = true := by simp [truthyStr, hc, hne]
    have he : chooseContent res2 = some c := by
      unfold chooseContent
      rw [if_pos ht, hc]
    rw [hbase, he]
  · intro hf c hc hne
    have ht : truthyStr res2.rawMarkdown = true := by simp [truthyStr, hc, hne]
    have he : chooseContent res2 = some c := by
      unfold chooseContent
      rw [if_neg (by simp [hf]), if_pos ht, hc]
    rw [hbase, he]
  · intro hf hr
    have he : chooseContent res2 = none := by
      unfold chooseContent
      rw [if_neg (by simp [hf]), if_neg (by simp [hr])]
    rw [hbase, he]

/-- Witness for C9 at concrete fetch results. -/
theorem c9_markdown_fallback_witness :
    (⟨true, none, none, none, none⟩ : FetchResult).success = true
    ∧ extractArticleData (⟨true, none, none, none, none⟩ : FetchResult).extractedContent =
        .missed
    ∧ ((⟨false, none, some "FIT", some "RAW", some "T"⟩ : FetchResult).success = true →
        extractArticleData
          (⟨false, none, some "FIT", some "RAW", some "T"⟩ : FetchResult).extractedContent =
          .missed)
    ∧ scrapeUrl ⟨true, none, none, none, none⟩ ⟨false, none, some "FIT", some "RAW", some "T"⟩ =
        some [("title", fallbackTitle ⟨false, none, some "FIT", some "RAW", some "T"⟩),
              ("content", .str "FIT")] :=
  ⟨rfl, by decide, by decide,
    (c9_markdown_fallback _ _ rfl (by decide) (by decide)).1 "FIT" rfl (by decide)⟩
